import Mathlib

/-!
Verification of the paperseek federation core.

This file gives a shallow embedding of the parts of the `paperseek`
repository that the verified properties talk about:

* the normalized result model (`Author`, `Paper`, `FieldStatistics`,
  `SearchResult` and its mutators) from `paperseek/core/models.py`;
* the identity resolver / deduplicator
  (`UnifiedSearchClient._deduplicate_results`) and the sequential and
  parallel federated-search drivers from `paperseek/core/unified_client.py`;
* the retry executor (`exponential_backoff_retry`, `RetryHandler`) from
  `paperseek/utils/retry.py`, the exception taxonomy from
  `paperseek/core/exceptions.py`, and the HTTP status classification
  `DatabaseClient._check_response` from `paperseek/core/base.py`.

Python floats are embedded as rationals, Python `None`/values as `Option`,
raised exceptions as `Except`, and the random jitter draw as an explicit
parameter.  Network calls are abstracted to their observable outcome: a
backend is a name together with the `Except` outcome of its `search` call.
-/

namespace Paperseek

/-- One contributor of a paper (`Author` in `models.py`). -/
structure Author where
  name : String
  affiliation : Option String := none
  orcid : Option String := none
deriving DecidableEq, Repr

/-- Normalized paper metadata (`Paper` in `models.py`).  Fields are listed in
the source's declaration order, which is also the order `model_dump()`
iterates them in.  `extra_data` is an opaque map (only its emptiness is ever
observed) and `retrieved_at` an opaque timestamp. -/
structure Paper where
  doi : Option String := none
  pmid : Option String := none
  arxiv_id : Option String := none
  title : String
  authors : List Author := []
  abstract : Option String := none
  year : Option Int := none
  publication_date : Option String := none
  venue : Option String := none
  journal : Option String := none
  conference : Option String := none
  volume : Option String := none
  issue : Option String := none
  pages : Option String := none
  publisher : Option String := none
  keywords : List String := []
  citation_count : Option Int := none
  reference_count : Option Int := none
  url : Option String := none
  pdf_url : Option String := none
  is_open_access : Option Bool := none
  source_database : String
  source_id : Option String := none
  extra_data : List (String × String) := []
  retrieved_at : Nat := 0
deriving DecidableEq, Repr

/-- The `(field name, is-present)` pairs that iterating `model_dump().items()`
yields for a `Paper`, in field order.  A value is "present" when it is not
`None` and, for list/dict valued fields, not empty — mirroring the body of
`Paper.get_available_fields`.  Non-optional string fields (`title`,
`source_database`) are always present (an empty string is not `None`). -/
def Paper.modelDumpPresence (p : Paper) : List (String × Bool) :=
  [("doi", p.doi.isSome), ("pmid", p.pmid.isSome), ("arxiv_id", p.arxiv_id.isSome),
   ("title", true), ("authors", !p.authors.isEmpty), ("abstract", p.abstract.isSome),
   ("year", p.year.isSome), ("publication_date", p.publication_date.isSome),
   ("venue", p.venue.isSome), ("journal", p.journal.isSome),
   ("conference", p.conference.isSome), ("volume", p.volume.isSome),
   ("issue", p.issue.isSome), ("pages", p.pages.isSome),
   ("publisher", p.publisher.isSome), ("keywords", !p.keywords.isEmpty),
   ("citation_count", p.citation_count.isSome),
   ("reference_count", p.reference_count.isSome),
   ("url", p.url.isSome), ("pdf_url", p.pdf_url.isSome),
   ("is_open_access", p.is_open_access.isSome),
   ("source_database", true), ("source_id", p.source_id.isSome),
   ("extra_data", !p.extra_data.isEmpty), ("retrieved_at", true)]

/-- The three field names `Paper.get_available_fields` skips with `continue`. -/
def skippedFields : List String := ["extra_data", "retrieved_at", "source_database"]

/-- `Paper.get_available_fields` from `models.py`: every dumped field that is
not one of the three skipped names and whose value is present. -/
def Paper.get_available_fields (p : Paper) : List String :=
  (p.modelDumpPresence.filter
    (fun fv => !(skippedFields.contains fv.1) && fv.2)).map Prod.fst

/-- `FieldStatistics` from `models.py` (the `percentage` float as a rational). -/
structure FieldStatistics where
  field_name : String
  available_count : Nat
  total_count : Nat
  percentage : ℚ
deriving DecidableEq, Repr

/-- `SearchResult` from `models.py`.  `query_info` is an opaque map and
`search_timestamp` an opaque timestamp. -/
structure SearchResult where
  papers : List Paper := []
  total_results : Nat := 0
  query_info : List (String × String) := []
  databases_queried : List String := []
  search_timestamp : Nat := 0
deriving DecidableEq, Repr

/-- `SearchResult.add_paper`: append one paper, reset `total_results`. -/
def SearchResult.add_paper (r : SearchResult) (p : Paper) : SearchResult :=
  let ps := r.papers ++ [p]
  { r with papers := ps, total_results := ps.length }

/-- `SearchResult.extend`: append many papers, reset `total_results`. -/
def SearchResult.extend (r : SearchResult) (ps : List Paper) : SearchResult :=
  let ps2 := r.papers ++ ps
  { r with papers := ps2, total_results := ps2.length }

/-- `SearchResult.filter_by_required_fields`: keep the papers whose available
fields contain every required field; builds a fresh result. -/
def SearchResult.filter_by_required_fields
    (r : SearchResult) (required_fields : List String) : SearchResult :=
  let filtered := r.papers.filter
    (fun p => required_fields.all (fun f => p.get_available_fields.contains f))
  { papers := filtered
    total_results := filtered.length
    query_info := r.query_info
    databases_queried := r.databases_queried
    search_timestamp := r.search_timestamp }

/-- Number of papers in `ps` for which field `f` is available — the value the
`field_counts` dictionary of `SearchResult.field_statistics` holds for `f`. -/
def countAvail (ps : List Paper) (f : String) : Nat :=
  (ps.filter (fun p => p.get_available_fields.contains f)).length

/-- Lexicographic comparison of character lists by code point (auxiliary for
`pyStrLe`). -/
def charListLe : List Char → List Char → Bool
  | [], _ => true
  | _ :: _, [] => false
  | a :: as, b :: bs =>
    if a.toNat < b.toNat then true
    else if b.toNat < a.toNat then false
    else charListLe as bs

/-- Python string comparison `a <= b`: lexicographic by code point. -/
def pyStrLe (a b : String) : Bool := charListLe a.data b.data

/-- Insert a string into an already ascending list (auxiliary for
`sortFields`). -/
def insertSorted (a : String) : List String → List String
  | [] => [a]
  | b :: bs => if pyStrLe a b then a :: b :: bs else b :: insertSorted a bs

/-- Python's `sorted(...)` on a list of distinct strings: ascending order. -/
def sortFields (l : List String) : List String := l.foldr insertSorted []

/-- `SearchResult.field_statistics` from `models.py`: empty for an empty paper
list; otherwise one `FieldStatistics` per field occurring in some paper's
available fields, keyed in sorted order. -/
def SearchResult.field_statistics (r : SearchResult) : List FieldStatistics :=
  if r.papers.isEmpty then []
  else
    let all_fields := sortFields ((r.papers.flatMap Paper.get_available_fields).dedup)
    let total := r.papers.length
    all_fields.map (fun f =>
      { field_name := f
        available_count := countAvail r.papers f
        total_count := total
        percentage := if total > 0 then (countAvail r.papers f : ℚ) / total * 100 else 0 })

/-- An identity key: `(DOI-or-empty, PMID-or-empty, arXiv-or-empty, title-key)`. -/
abbrev Key : Type := String × String × String × String

/-- Python's `str.lower()`: lower-case every character. -/
def pyLower (s : String) : String := ⟨s.data.map Char.toLower⟩

/-- Python's `str.strip()`: drop leading and trailing whitespace. -/
def pyStrip (s : String) : String :=
  ⟨((s.data.dropWhile Char.isWhitespace).reverse.dropWhile Char.isWhitespace).reverse⟩

/-- The identity tuple `_deduplicate_results` builds for a paper:
`(paper.doi or "", paper.pmid or "", paper.arxiv_id or "",
paper.title.lower() if paper.title else "")`.  Note: the title is
lower-cased but NOT trimmed/stripped. -/
def paperKey (p : Paper) : Key :=
  (p.doi.getD "", p.pmid.getD "", p.arxiv_id.getD "",
   if p.title ≠ "" then pyLower p.title else "")

/-- `any(paper_id)`: some component of the key is a non-empty string. -/
def anyKey (k : Key) : Bool :=
  k.1 != "" || k.2.1 != "" || k.2.2.1 != "" || k.2.2.2 != ""

/-- The loop body of `_deduplicate_results`: walk the papers carrying the
`seen_ids` set (as a list of keys); keep a paper when its key is unseen and
not entirely empty. -/
def dedupGo (seen : List Key) : List Paper → List Paper
  | [] => []
  | p :: ps =>
    let k := paperKey p
    if !(seen.contains k) && anyKey k then p :: dedupGo (k :: seen) ps
    else dedupGo seen ps

/-- `UnifiedSearchClient._deduplicate_results`: replace the paper list by its
first-seen-unique sublist and reset `total_results`. -/
def deduplicate_results (r : SearchResult) : SearchResult :=
  let unique := dedupGo [] r.papers
  { r with papers := unique, total_results := unique.length }

/-- The identity key worded by the spec (claim side): the title component is
lower-cased AND trimmed.  Kept separate from `paperKey` so the two can be
compared; the source's `_deduplicate_results` never trims. -/
def claimPaperKey (p : Paper) : Key :=
  (p.doi.getD "", p.pmid.getD "", p.arxiv_id.getD "", pyLower (pyStrip p.title))

/-- The claim's deduplication rule, stated structurally over the paper list:
walking in order, a paper is kept iff its key is not entirely empty, and
keeping it discards every later paper with the same key (first occurrence
wins, relative order preserved). -/
def dedupClaim : List Paper → List Paper
  | [] => []
  | p :: ps =>
    if anyKey (paperKey p) then
      p :: dedupClaim (ps.filter (fun q => paperKey q ≠ paperKey p))
    else dedupClaim ps
termination_by l => l.length
decreasing_by
  · exact Nat.lt_succ_of_le (ps.length_filter_le _)
  · exact Nat.lt_succ_self _

/-! ### Federated search drivers

A configured backend is modelled by its name and the outcome of its
`client.search(filters)` call: either the returned papers or the message of
the exception it raised.  `fail_fast` is the configuration flag
(`AcademicSearchConfig.fail_fast`, default `False`); `required_fields`
models `filters.required_fields` (`None` or a list). -/

/-- Outcome of one backend's `search` call. -/
def BackendOutcome : Type := String × Except String (List Paper)

/-- The `for db_name, client in self.clients.items()` loop of
`_search_sequential`: accumulate results; after a successful call with a
non-empty paper list, break unless `fail_fast`; on an exception, raise
`SearchError` when `fail_fast`, else continue. -/
def searchSequentialGo (failFast : Bool) (acc : SearchResult) :
    List BackendOutcome → Except String SearchResult
  | [] => .ok acc
  | (name, out) :: rest =>
    match out with
    | .ok papers =>
      let acc := { acc with databases_queried := acc.databases_queried ++ [name] }
      let acc := acc.extend papers
      if !papers.isEmpty && !failFast then .ok acc
      else searchSequentialGo failFast acc rest
    | .error e =>
      if failFast then .error ("Search failed for " ++ name ++ ": " ++ e)
      else searchSequentialGo failFast acc rest

/-- Post-processing shared by the sequential and parallel drivers:
deduplicate, then filter by required fields when `filters.required_fields`
is truthy (set and non-empty). -/
def postProcess (required_fields : Option (List String)) (r : SearchResult) :
    SearchResult :=
  let r := deduplicate_results r
  match required_fields with
  | some req => if !req.isEmpty then r.filter_by_required_fields req else r
  | none => r

/-- `UnifiedSearchClient._search_sequential`, over the listed backend
outcomes (in registration order). -/
def search_sequential (failFast : Bool) (backends : List BackendOutcome)
    (required_fields : Option (List String)) : Except String SearchResult :=
  match searchSequentialGo failFast {} backends with
  | .error e => .error e
  | .ok res => .ok (postProcess required_fields res)

/-- The `as_completed` collection loop of `_search_parallel`: accumulate each
completed backend's papers; on a failed backend raise `SearchError` when
`fail_fast`, else skip it.  The argument lists the outcomes in completion
order. -/
def searchParallelGo (failFast : Bool) (acc : SearchResult) :
    List BackendOutcome → Except String SearchResult
  | [] => .ok acc
  | (name, out) :: rest =>
    match out with
    | .ok papers =>
      let acc := { acc with databases_queried := acc.databases_queried ++ [name] }
      searchParallelGo failFast (acc.extend papers) rest
    | .error e =>
      if failFast then .error ("Search failed for " ++ name ++ ": " ++ e)
      else searchParallelGo failFast acc rest

/-- `UnifiedSearchClient._search_parallel`, over the backend outcomes in
completion order. -/
def search_parallel (failFast : Bool) (completed : List BackendOutcome)
    (required_fields : Option (List String)) : Except String SearchResult :=
  match searchParallelGo failFast {} completed with
  | .error e => .error e
  | .ok res => .ok (postProcess required_fields res)

/-! ### Retry executor -/

/-- The exception taxonomy of `core/exceptions.py` restricted to what the
retry executor distinguishes. -/
inductive PSError where
  | rateLimit (database : String) (retryAfter : Option Nat)
  | api (database : String) (statusCode : Option Nat)
  | timeout (database : String)
  | authentication (database : String)
  | validation (msg : String)
  | other (msg : String)
deriving DecidableEq, Repr

/-- Membership in the default `retry_on = (APIError, RateLimitError,
TimeoutError)` tuple.  `AuthenticationError` subclasses `DatabaseError`, not
`APIError`, and `ValidationError` subclasses `AcademicSearchError`, so
neither matches. -/
def retryable : PSError → Bool
  | .rateLimit _ _ => true
  | .api _ _ => true
  | .timeout _ => true
  | _ => false

/-- `DatabaseClient._check_response`: classify an HTTP status into the raised
exception (`none` when the response is OK).  `response.ok` is
`status < 400`. -/
def check_response (status : Nat) (retryAfterHeader : Option Nat)
    (dbName : String) : Option PSError :=
  if status == 429 then some (.rateLimit dbName retryAfterHeader)
  else if status == 401 || status == 403 then some (.authentication dbName)
  else if !(status < 400) then some (.api dbName (some status))
  else none

/-- The backoff delay of lines 54–62 of `retry.py`:
`min(delay * base ** (retries - 1), max_delay)`, times `0.5 +
random.random()` when jitter is on (the draw `r` is passed explicitly), then
`max(·, e.retry_after)` when the error is a truthy-`retry_after` rate-limit
error. -/
def loopDelay (initial_delay max_delay exponential_base : ℚ) (jitter : Bool)
    (r : ℚ) (retries : Nat) (e : PSError) : ℚ :=
  let d := min (initial_delay * exponential_base ^ (retries - 1)) max_delay
  let d := if jitter then d * (1/2 + r) else d
  match e with
  | .rateLimit _ (some ra) => if ra ≠ 0 then max d (ra : ℚ) else d
  | _ => d

/-- The observable outcome of running the retry wrapper: the returned value
or propagated error, the number of invocations of the wrapped function, and
the list of back-off sleeps performed. -/
structure RetryOutcome (α : Type) where
  result : Except PSError α
  calls : Nat
  sleeps : List ℚ
deriving Repr

/-- The `while True` loop of `exponential_backoff_retry` (and identically
`RetryHandler.execute`).  `f k` is the outcome of the `(k+1)`-th invocation
of the wrapped function; `delay retries e` is the back-off computed before
the sleep when `retries` attempts have failed with `e` was the last error;
`k` counts the invocations already failed.  On a retryable error the loop
re-raises once `retries > max_retries`, else sleeps and loops; any other
error re-raises at once. -/
def retryGo (maxRetries : Nat) (f : Nat → Except PSError α)
    (delay : Nat → PSError → ℚ) (k : Nat) : RetryOutcome α :=
  match f k with
  | .ok v => ⟨.ok v, k + 1, []⟩
  | .error e =>
    if retryable e then
      if k + 1 > maxRetries then ⟨.error e, k + 1, []⟩
      else
        let rest := retryGo maxRetries f delay (k + 1)
        ⟨rest.result, rest.calls, delay (k + 1) e :: rest.sleeps⟩
    else ⟨.error e, k + 1, []⟩
termination_by maxRetries + 1 - k
decreasing_by omega

/-- A function wrapped by `exponential_backoff_retry(max_retries,
initial_delay, max_delay, exponential_base, jitter)`, run to completion.
`rand n` is the `random.random()` draw used before the `n`-th sleep. -/
def exponential_backoff_retry (max_retries : Nat)
    (initial_delay max_delay exponential_base : ℚ) (jitter : Bool)
    (rand : Nat → ℚ) (f : Nat → Except PSError α) : RetryOutcome α :=
  retryGo max_retries f
    (fun retries e =>
      loopDelay initial_delay max_delay exponential_base jitter (rand retries) retries e)
    0

/-- `RetryHandler` from `retry.py` (configuration fields only). -/
structure RetryHandler where
  max_retries : Nat := 3
  initial_delay : ℚ := 1
  max_delay : ℚ := 60
  exponential_base : ℚ := 2
  jitter : Bool := true
deriving DecidableEq, Repr

/-- `RetryHandler.calculate_delay(attempt, retry_after)`:
`min(initial_delay * base ** (attempt - 1), max_delay)`, jittered by the
explicit draw `r`, then `max(·, retry_after)` when `retry_after` is truthy
(not `None` and non-zero). -/
def RetryHandler.calculate_delay (h : RetryHandler) (attempt : Nat) (r : ℚ)
    (retry_after : Option Nat) : ℚ :=
  let d := min (h.initial_delay * h.exponential_base ^ (attempt - 1)) h.max_delay
  let d := if h.jitter then d * (1/2 + r) else d
  match retry_after with
  | some ra => if ra ≠ 0 then max d (ra : ℚ) else d
  | none => d

/-- The delay the spec's wording prescribes for one retry attempt:
`min(initial * base^(attempt-1), max_delay)`, multiplied by the jitter
factor `0.5 + r` when jitter is enabled. -/
def claimedDelay (h : RetryHandler) (attempt : Nat) (r : ℚ) : ℚ :=
  min (h.initial_delay * h.exponential_base ^ (attempt - 1)) h.max_delay
    * (if h.jitter then 1/2 + r else 1)

/-- Whether an `Except` outcome is an error (a raised exception). -/
def isErr : Except ε α → Bool
  | .error _ => true
  | .ok _ => false

/-! ### Sample records used to instantiate the universally quantified
theorems at concrete inputs. -/

/-- A sample paper with a DOI. -/
def samplePaperA : Paper :=
  { title := "Alpha", source_database := "crossref", doi := some "10.1/x", year := some 2020 }

/-- A second, distinct sample paper. -/
def samplePaperB : Paper :=
  { title := "Beta", source_database := "openalex", doi := some "10.2/y" }

/-- A duplicate of `samplePaperA`: same DOI and title, different venue and
source, hence the same identity key. -/
def sampleDupA : Paper :=
  { title := "Alpha", source_database := "openalex", doi := some "10.1/x",
    venue := some "Other Venue" }

/-- A paper with no identifiers and a whitespace-only title: its trimmed key
is entirely empty but its untrimmed key is not. -/
def sampleWhitespace : Paper := { title := " ", source_database := "arxiv" }

/-- A paper with no identifiers and an empty title: its key is entirely
empty. -/
def sampleUnidentifiable : Paper := { title := "", source_database := "arxiv" }

/-! ## Lemmas about the deduplicator -/

/-- The deduplication loop output is a sublist of its input: kept papers
appear in their original relative order. -/
theorem dedupGo_sublist (ps : List Paper) : ∀ seen, List.Sublist (dedupGo seen ps) ps := by
  induction ps with
  | nil => intro seen; simp [dedupGo]
  | cons p ps ih =>
    intro seen
    rw [dedupGo]
    split
    · exact (ih _).cons₂ p
    · exact (ih _).cons p

/-- The deduplication loop, started with `seen` keys already recorded, agrees
with the claim's first-occurrence rule applied to the papers whose keys are
not in `seen`. -/
theorem dedupGo_eq_dedupClaim (ps : List Paper) :
    ∀ seen, dedupGo seen ps
      = dedupClaim (ps.filter (fun q => !(seen.contains (paperKey q)))) := by
  induction ps with
  | nil => intro seen; simp [dedupGo, dedupClaim]
  | cons p ps ih =>
    intro seen
    rw [dedupGo, List.filter_cons]
    by_cases h1 : seen.contains (paperKey p)
    · rw [if_neg (by rw [h1]; simp), if_neg (by rw [h1]; simp), ih]
    · have h1' : seen.contains (paperKey p) = false := Bool.eq_false_iff.mpr h1
      by_cases h2 : anyKey (paperKey p) = true
      · rw [if_pos (by rw [h1', h2]; rfl), if_pos (by rw [h1']; rfl)]
        rw [dedupClaim]
        rw [if_pos h2]
        rw [ih (paperKey p :: seen)]
        congr 1
        congr 1
        rw [List.filter_filter]
        apply List.filter_congr
        intro q hq
        by_cases hx : paperKey q = paperKey p
        · simp [hx, List.contains_cons]
        · simp [hx, List.contains_cons]
      · have h2' : anyKey (paperKey p) = false := Bool.eq_false_iff.mpr h2
        rw [if_neg (by rw [h1', h2']; simp), if_pos (by rw [h1']; rfl)]
        rw [dedupClaim]
        rw [if_neg (by rw [h2']; simp)]
        exact ih seen

/-- Every paper kept by the deduplication loop has a not-entirely-empty key
that is not among the `seen` keys, and the kept keys are pairwise
distinct. -/
theorem dedupGo_invariant (ps : List Paper) :
    ∀ seen,
      (∀ p ∈ dedupGo seen ps,
        anyKey (paperKey p) = true ∧ seen.contains (paperKey p) = false)
      ∧ ((dedupGo seen ps).map paperKey).Nodup := by
  induction ps with
  | nil => intro seen; simp [dedupGo]
  | cons p ps ih =>
    intro seen
    rw [dedupGo]
    split
    case isTrue h =>
      rw [Bool.and_eq_true] at h
      obtain ⟨h1, h2⟩ := h
      have h1' : seen.contains (paperKey p) = false := by simpa using h1
      obtain ⟨ihmem, ihnodup⟩ := ih (paperKey p :: seen)
      constructor
      · intro q hq
        rcases List.mem_cons.mp hq with rfl | hq'
        · exact ⟨h2, h1'⟩
        · obtain ⟨ha, hc⟩ := ihmem q hq'
          refine ⟨ha, ?_⟩
          simp only [List.contains_cons, Bool.or_eq_false_iff] at hc
          exact hc.2
      · rw [List.map_cons]
        refine List.nodup_cons.mpr ⟨?_, ihnodup⟩
        intro hmem
        obtain ⟨q, hq, hkeq⟩ := List.mem_map.mp hmem
        have hc := (ihmem q hq).2
        simp [List.contains_cons, hkeq] at hc
    case isFalse h => exact ih seen

/-- A paper list whose keys are all not-entirely-empty, pairwise distinct and
disjoint from `seen` passes through the deduplication loop unchanged. -/
theorem dedupGo_fixed (ps : List Paper) :
    ∀ seen,
      (∀ p ∈ ps, anyKey (paperKey p) = true ∧ seen.contains (paperKey p) = false) →
      (ps.map paperKey).Nodup → dedupGo seen ps = ps := by
  induction ps with
  | nil => intro seen _ _; rfl
  | cons p ps ih =>
    intro seen hmem hnd
    obtain ⟨h2, h1⟩ := hmem p (List.mem_cons_self p ps)
    rw [dedupGo]
    rw [if_pos (by rw [h1, h2]; rfl)]
    congr 1
    rw [List.map_cons, List.nodup_cons] at hnd
    apply ih
    · intro q hq
      refine ⟨(hmem q (List.mem_cons_of_mem p hq)).1, ?_⟩
      have hne : paperKey q ≠ paperKey p := by
        intro he
        exact hnd.1 (List.mem_map.mpr ⟨q, hq, he⟩)
      rw [List.contains_cons]
      rw [beq_eq_false_iff_ne.mpr hne, (hmem q (List.mem_cons_of_mem p hq)).2]
      rfl
    · exact hnd.2

/-- C1 (amended: the title component of the identity key is lower-cased but
not trimmed).  The deduplicator's paper list is exactly the claim's
first-occurrence rule applied with the untrimmed key: walking the list in
order, a paper is kept iff its key `(DOI-or-empty, PMID-or-empty,
arXiv-id-or-empty, lower-cased-title-or-empty)` is not entirely empty and was
not produced by any earlier paper; earlier duplicates win; and the kept
papers are a sublist of the input, hence in their original relative
order. -/
theorem C1_theorem (r : SearchResult) :
    (deduplicate_results r).papers = dedupClaim r.papers
    ∧ List.Sublist (deduplicate_results r).papers r.papers := by
  constructor
  · show dedupGo [] r.papers = _
    rw [dedupGo_eq_dedupClaim]
    congr 1
    exact List.filter_eq_self.mpr (fun a _ => rfl)
  · exact dedupGo_sublist r.papers []

/-- C1 counterexample to the claim as stated: the claim's identity key uses
the lower-cased **trimmed** title, so a paper whose title is a single blank
and has no identifiers has an entirely-empty key and must be dropped; the
code does not trim, computes the key `("", "", "", " ")`, and keeps the
paper. -/
theorem C1_counterexample :
    (deduplicate_results { papers := [sampleWhitespace], total_results := 1 }).papers
      = [sampleWhitespace]
    ∧ claimPaperKey sampleWhitespace = ("", "", "", "")
    ∧ anyKey (claimPaperKey sampleWhitespace) = false
    ∧ paperKey sampleWhitespace = ("", "", "", " ") := by
  refine ⟨?_, ?_, ?_, ?_⟩ <;> decide

/-- C7: the identity resolver is idempotent — deduplicating an
already-deduplicated result leaves the paper list unchanged. -/
theorem C7_theorem (r : SearchResult) :
    (deduplicate_results (deduplicate_results r)).papers
      = (deduplicate_results r).papers := by
  show dedupGo [] (dedupGo [] r.papers) = dedupGo [] r.papers
  obtain ⟨hmem, hnd⟩ := dedupGo_invariant r.papers []
  exact dedupGo_fixed _ [] (fun p hp => ⟨(hmem p hp).1, rfl⟩) hnd

/-! ## Lemmas about the federated search drivers -/

/-- With `fail_fast` off, the sequential loop ignores a run of failing
backends and returns the accumulator unchanged. -/
theorem searchSequentialGo_allErr (bs : List BackendOutcome) :
    ∀ acc, bs.all (fun be => isErr be.2) = true →
      searchSequentialGo false acc bs = .ok acc := by
  induction bs with
  | nil => intro acc _; rfl
  | cons be bs ih =>
    intro acc hall
    obtain ⟨n, out⟩ := be
    rw [List.all_cons, Bool.and_eq_true] at hall
    cases out with
    | ok papers => simp [isErr] at hall
    | error e =>
      rw [searchSequentialGo]
      exact ih acc hall.2

/-- With `fail_fast` off, the parallel collection loop ignores a run of
failing backends and returns the accumulator unchanged. -/
theorem searchParallelGo_allErr (bs : List BackendOutcome) :
    ∀ acc, bs.all (fun be => isErr be.2) = true →
      searchParallelGo false acc bs = .ok acc := by
  induction bs with
  | nil => intro acc _; rfl
  | cons be bs ih =>
    intro acc hall
    obtain ⟨n, out⟩ := be
    rw [List.all_cons, Bool.and_eq_true] at hall
    cases out with
    | ok papers => simp [isErr] at hall
    | error e =>
      rw [searchParallelGo]
      exact ih acc hall.2

/-- Deduplicating and filtering the fresh empty result is a no-op. -/
theorem postProcess_empty (req : Option (List String)) :
    postProcess req ({} : SearchResult) = {} := by
  cases req with
  | none => rfl
  | some l => cases l <;> rfl

/-- C2 (amended).  In sequential mode with the default `fail_fast = False`,
the search stops at the first backend returning results, so two backends each
returning one distinct record merge to `[recordFromA]`; only with
`fail_fast = True` (try-all mode) is the merged list
`[recordFromA, recordFromB]`.  The records are assumed to have distinct,
not-entirely-empty identity keys. -/
theorem C2_theorem (a b : Paper) (nA nB : String)
    (ha : anyKey (paperKey a) = true) (hb : anyKey (paperKey b) = true)
    (hab : paperKey a ≠ paperKey b) :
    search_sequential false [(nA, .ok [a]), (nB, .ok [b])] none
      = .ok { papers := [a], total_results := 1, databases_queried := [nA] }
    ∧ search_sequential true [(nA, .ok [a]), (nB, .ok [b])] none
      = .ok { papers := [a, b], total_results := 2, databases_queried := [nA, nB] } := by
  have hba : (paperKey b == paperKey a) = false :=
    beq_eq_false_iff_ne.mpr (fun hx => hab hx.symm)
  have hba' : ¬paperKey b = paperKey a := fun hx => hab hx.symm
  constructor <;>
    simp [search_sequential, searchSequentialGo, postProcess, deduplicate_results,
          dedupGo, SearchResult.extend, ha, hb, hba, hba']

/-- C2 witness: the general theorem applied to two concrete sample papers. -/
theorem C2_witness :
    search_sequential false
        [("crossref", .ok [samplePaperA]), ("openalex", .ok [samplePaperB])] none
      = .ok { papers := [samplePaperA], total_results := 1,
              databases_queried := ["crossref"] }
    ∧ search_sequential true
        [("crossref", .ok [samplePaperA]), ("openalex", .ok [samplePaperB])] none
      = .ok { papers := [samplePaperA, samplePaperB], total_results := 2,
              databases_queried := ["crossref", "openalex"] } :=
  C2_theorem samplePaperA samplePaperB "crossref" "openalex"
    (by decide) (by decide) (by decide)

/-- C2 counterexample to the claim as stated: with the default configuration
(`fail_fast = False`), the sequential search breaks after the first backend
that returned papers, so the merged list is `[recordFromA]`, not
`[recordFromA, recordFromB]`. -/
theorem C2_counterexample :
    Except.map (fun r => r.papers)
        (search_sequential false
          [("crossref", .ok [samplePaperA]), ("openalex", .ok [samplePaperB])] none)
      = .ok [samplePaperA]
    ∧ ([samplePaperA] : List Paper) ≠ [samplePaperA, samplePaperB] := by
  constructor
  · rfl
  · decide

/-- C3 (amended).  When every configured backend raises, the propagated
`SearchError` naming the failing backend only happens under
`fail_fast = True`; with the default `fail_fast = False` both drivers return
the empty, well-formed `SearchResult` instead of an error. -/
theorem C3_theorem (n₀ e₀ : String) (rest : List BackendOutcome)
    (hrest : rest.all (fun be => isErr be.2) = true) (req : Option (List String)) :
    search_sequential true ((n₀, .error e₀) :: rest) req
      = .error ("Search failed for " ++ n₀ ++ ": " ++ e₀)
    ∧ search_parallel true ((n₀, .error e₀) :: rest) req
      = .error ("Search failed for " ++ n₀ ++ ": " ++ e₀)
    ∧ search_sequential false ((n₀, .error e₀) :: rest) req = .ok {}
    ∧ search_parallel false ((n₀, .error e₀) :: rest) req = .ok {} := by
  have hseq : searchSequentialGo false {} ((n₀, .error e₀) :: rest)
      = .ok ({} : SearchResult) := by
    rw [searchSequentialGo]
    exact searchSequentialGo_allErr rest {} hrest
  have hpar : searchParallelGo false {} ((n₀, .error e₀) :: rest)
      = .ok ({} : SearchResult) := by
    rw [searchParallelGo]
    exact searchParallelGo_allErr rest {} hrest
  refine ⟨rfl, rfl, ?_, ?_⟩
  · rw [search_sequential, hseq]
    simp [postProcess_empty]
  · rw [search_parallel, hpar]
    simp [postProcess_empty]

/-- C3 witness: the amended theorem applied to two concrete failing
backends. -/
theorem C3_witness :
    search_sequential true
        [("crossref", .error "boom"), ("openalex", .error "bang")] none
      = .error "Search failed for crossref: boom"
    ∧ search_parallel true
        [("crossref", .error "boom"), ("openalex", .error "bang")] none
      = .error "Search failed for crossref: boom"
    ∧ search_sequential false
        [("crossref", .error "boom"), ("openalex", .error "bang")] none = .ok {}
    ∧ search_parallel false
        [("crossref", .error "boom"), ("openalex", .error "bang")] none = .ok {} :=
  C3_theorem "crossref" "boom" [("openalex", .error "bang")] (by decide) none

/-- C3 counterexample to the claim as stated: with the default
`fail_fast = False`, a federated call in which every backend raised returns
the empty `SearchResult` (`.ok` with zero papers), not a propagated error. -/
theorem C3_counterexample :
    search_sequential false
        [("crossref", .error "boom"), ("openalex", .error "bang")] none
      = .ok ({} : SearchResult)
    ∧ ({} : SearchResult).papers = [] := by
  constructor
  · rfl
  · rfl

/-! ## Lemmas about the retry executor -/

/-- When every invocation fails with a retryable error, the retry loop,
entered with `k` attempts already failed (`k ≤ mr`), ends by re-raising the
error of invocation `mr` after `mr + 1` total invocations, sleeping once per
remaining retry. -/
theorem retryGo_allFail {α : Type} (mr : Nat) (f : Nat → Except PSError α)
    (d : Nat → PSError → ℚ) (e : Nat → PSError)
    (hf : ∀ k, f k = .error (e k)) (hr : ∀ k, retryable (e k) = true) :
    ∀ m k, mr + 1 - k = m → k ≤ mr →
      (retryGo mr f d k).result = .error (e mr)
      ∧ (retryGo mr f d k).calls = mr + 1
      ∧ (retryGo mr f d k).sleeps.length = mr - k := by
  intro m
  induction m with
  | zero => intro k hm hk; omega
  | succ m ih =>
    intro k hm hk
    rw [retryGo, hf k]
    simp only [hr k, if_true]
    by_cases hkm : k = mr
    · subst hkm
      rw [if_pos (by omega)]
      exact ⟨rfl, rfl, by simp⟩
    · rw [if_neg (by omega)]
      obtain ⟨h1, h2, h3⟩ := ih (k + 1) (by omega) (by omega)
      exact ⟨h1, h2, by simp [h3]; omega⟩

/-- C4: a function that fails with a retryable (transient) error on every
invocation is invoked exactly `n + 1` times under retry ceiling `n` (one
initial attempt plus `n` retries, with `n` back-off sleeps), and the error of
the last invocation is re-raised unchanged. -/
theorem C4_theorem {α : Type} (n : Nat) (initial maxd eb : ℚ) (jit : Bool)
    (rand : Nat → ℚ) (f : Nat → Except PSError α) (e : Nat → PSError)
    (hf : ∀ k, f k = .error (e k)) (hr : ∀ k, retryable (e k) = true) :
    (exponential_backoff_retry n initial maxd eb jit rand f).calls = n + 1
    ∧ (exponential_backoff_retry n initial maxd eb jit rand f).result
        = .error (e n)
    ∧ (exponential_backoff_retry n initial maxd eb jit rand f).sleeps.length = n := by
  obtain ⟨h1, h2, h3⟩ :=
    retryGo_allFail n f
      (fun retries er =>
        loopDelay initial maxd eb jit (rand retries) retries er)
      e hf hr (n + 1) 0 (by omega) (by omega)
  exact ⟨h2, h1, by simpa using h3⟩

/-- C4 witness: a backend that always times out, retry ceiling 3: exactly 4
invocations and the timeout error propagates. -/
theorem C4_witness :
    (exponential_backoff_retry 3 1 60 2 true (fun _ => 1/2)
        (fun _ => (Except.error (PSError.timeout "crossref") : Except PSError Unit))).calls
      = 3 + 1
    ∧ (exponential_backoff_retry 3 1 60 2 true (fun _ => 1/2)
        (fun _ => (Except.error (PSError.timeout "crossref") : Except PSError Unit))).result
      = .error (PSError.timeout "crossref")
    ∧ (exponential_backoff_retry 3 1 60 2 true (fun _ => 1/2)
        (fun _ => (Except.error (PSError.timeout "crossref") : Except PSError Unit))).sleeps.length
      = 3 :=
  C4_theorem 3 1 60 2 true (fun _ => 1/2) _ (fun _ => PSError.timeout "crossref")
    (fun _ => rfl) (fun _ => rfl)

/-- C5 (amended).  Authentication failures and validation failures are not in
the `retry_on` set, so they propagate after a single invocation with no sleep;
but a malformed-request error is *not* in this class: an HTTP 400 response
raises `APIError`, which is retried (see the counterexample). -/
theorem C5_theorem {α : Type} (n : Nat) (initial maxd eb : ℚ) (jit : Bool)
    (rand : Nat → ℚ) (db msg : String) (f : Nat → Except PSError α) (e : PSError)
    (he : e = PSError.authentication db ∨ e = PSError.validation msg)
    (hf : f 0 = .error e) :
    exponential_backoff_retry n initial maxd eb jit rand f = ⟨.error e, 1, []⟩ := by
  rw [exponential_backoff_retry, retryGo, hf]
  rcases he with rfl | rfl <;> simp [retryable]

/-- C5 witness: an always-authentication-failing function is invoked once and
the failure propagates with no sleeps. -/
theorem C5_witness :
    exponential_backoff_retry 3 1 60 2 true (fun _ => 1/2)
        (fun _ => (Except.error (PSError.authentication "pubmed") : Except PSError Unit))
      = ⟨.error (PSError.authentication "pubmed"), 1, []⟩ :=
  C5_theorem 3 1 60 2 true (fun _ => 1/2) "pubmed" "" _ _ (Or.inl rfl) rfl

/-- C5 counterexample to the claim as stated: a malformed request surfaces as
`APIError` with status 400 (`_check_response` raises `AuthenticationError`
only for 401/403 and `APIError` for every other non-OK status), and
`APIError` *is* in the `retry_on` set — so an always-400-failing function is
invoked 4 times with 3 back-off sleeps under retry ceiling 3, not once with
none. -/
theorem C5_counterexample :
    check_response 400 none "crossref" = some (PSError.api "crossref" (some 400))
    ∧ retryable (PSError.api "crossref" (some 400)) = true
    ∧ (exponential_backoff_retry 3 1 60 2 true (fun _ => 1/2)
        (fun _ => (Except.error (PSError.api "crossref" (some 400)) : Except PSError Unit))).calls
      = 4
    ∧ (exponential_backoff_retry 3 1 60 2 true (fun _ => 1/2)
        (fun _ => (Except.error (PSError.api "crossref" (some 400)) : Except PSError Unit))).sleeps.length
      = 3 := by
  obtain ⟨h1, h2, h3⟩ :=
    retryGo_allFail 3 (fun _ => .error (PSError.api "crossref" (some 400)))
      (fun retries er => loopDelay 1 60 2 true ((fun _ => (1:ℚ)/2) retries) retries er)
      (fun _ => PSError.api "crossref" (some 400)) (fun _ => rfl) (fun _ => rfl)
      4 0 (by omega) (by omega)
  exact ⟨rfl, rfl, h2, by simpa using h3⟩

/-- C6: for attempt `k ≥ 1` the computed delay is
`min(initial * base^(k-1), max_delay)`, multiplied (when jitter is enabled)
by the factor `0.5 + r` which lies in `[0.5, 1.5)` for the uniform draw
`r ∈ [0, 1)`; a server-supplied rate-limit wait only ever overrides the
delay upward, to `max(computed, server value)`. -/
theorem C6_theorem (h : RetryHandler) (attempt : Nat) (r : ℚ)
    (hatt : 1 ≤ attempt) (hr0 : 0 ≤ r) (hr1 : r < 1)
    (hi : 0 ≤ h.initial_delay) (hm : 0 ≤ h.max_delay)
    (hb : 0 ≤ h.exponential_base) :
    h.calculate_delay attempt r none = claimedDelay h attempt r
    ∧ (h.jitter = true → 1/2 ≤ (1/2 + r : ℚ) ∧ (1/2 + r : ℚ) < 3/2)
    ∧ ∀ ra : Nat,
        h.calculate_delay attempt r (some ra)
          = max (claimedDelay h attempt r) (ra : ℚ)
        ∧ claimedDelay h attempt r ≤ h.calculate_delay attempt r (some ra) := by
  have hd0 : 0 ≤ claimedDelay h attempt r := by
    unfold claimedDelay
    apply mul_nonneg
    · exact le_min (mul_nonneg hi (pow_nonneg hb _)) hm
    · split
      · linarith
      · norm_num
  have hD : (if h.jitter
        then min (h.initial_delay * h.exponential_base ^ (attempt - 1)) h.max_delay
              * (1/2 + r)
        else min (h.initial_delay * h.exponential_base ^ (attempt - 1)) h.max_delay)
      = claimedDelay h attempt r := by
    rcases hj : h.jitter <;> simp [claimedDelay, hj]
  refine ⟨?_, ?_, ?_⟩
  · rw [RetryHandler.calculate_delay]
    exact hD
  · intro _
    constructor <;> linarith
  · intro ra
    rw [RetryHandler.calculate_delay]
    by_cases hra : ra = 0
    · subst hra
      simp only [Nat.cast_zero]
      rw [if_neg (by simp), hD, max_eq_left hd0]
      exact ⟨rfl, le_refl _⟩
    · rw [if_pos (by exact_mod_cast hra), hD]
      exact ⟨rfl, le_max_left _ _⟩

/-- C6 witness: the default handler, first retry, draw `r = 0`, server wait
10 seconds. -/
theorem C6_witness :
    ({} : RetryHandler).calculate_delay 1 0 none = claimedDelay {} 1 0
    ∧ ({} : RetryHandler).calculate_delay 1 0 (some 10)
        = max (claimedDelay {} 1 0) (10 : ℚ)
    ∧ claimedDelay {} 1 0 ≤ ({} : RetryHandler).calculate_delay 1 0 (some 10) := by
  obtain ⟨h1, _, h3⟩ :=
    C6_theorem {} 1 0 le_rfl le_rfl (by norm_num) (by norm_num) (by norm_num)
      (by norm_num)
  exact ⟨h1, (h3 10).1, (h3 10).2⟩

/-! ## Lemmas about the result model -/

/-- The three skipped field names never appear in a paper's available
fields. -/
theorem skipped_not_available (p : Paper) (f : String) (hf : f ∈ skippedFields) :
    f ∉ p.get_available_fields := by
  intro hmem
  unfold Paper.get_available_fields at hmem
  obtain ⟨⟨name, b⟩, hmem2, heq⟩ := List.mem_map.mp hmem
  obtain ⟨_, hpass⟩ := List.mem_filter.mp hmem2
  rw [Bool.and_eq_true] at hpass
  have hcont : skippedFields.contains name = false := by simpa using hpass.1
  rw [show name = f from heq] at hcont
  have htrue : skippedFields.elem f = true := List.elem_eq_true_of_mem hf
  rw [show skippedFields.contains f = skippedFields.elem f from rfl, htrue] at hcont
  exact Bool.noConfusion hcont

/-- C10: requiring any of the three skipped field names — in particular
`source_database`, which is required and always set on every `Paper` — makes
`filter_by_required_fields` return a result with zero papers, because
`get_available_fields` unconditionally omits those names. -/
theorem C10_theorem (r : SearchResult) (req : List String)
    (hreq : "source_database" ∈ req ∨ "retrieved_at" ∈ req ∨ "extra_data" ∈ req) :
    (r.filter_by_required_fields req).papers = [] := by
  show r.papers.filter _ = []
  rw [List.filter_eq_nil_iff]
  intro p _
  intro hall
  rw [List.all_eq_true] at hall
  have hdone : ∀ f : String, f ∈ skippedFields → f ∈ req → False := by
    intro f hskip hin
    have hc := hall f hin
    have hmem : f ∈ p.get_available_fields := by
      simpa using List.mem_of_elem_eq_true hc
    exact skipped_not_available p f hskip hmem
  rcases hreq with hx | hx | hx
  · exact hdone "source_database" (by simp [skippedFields]) hx
  · exact hdone "retrieved_at" (by simp [skippedFields]) hx
  · exact hdone "extra_data" (by simp [skippedFields]) hx

/-- C10 witness: requiring `source_database` on a one-paper result (whose
paper does have `source_database` set) filters everything out. -/
theorem C10_witness :
    ("source_database" ∈ ["source_database"]
      ∨ "retrieved_at" ∈ ["source_database"] ∨ "extra_data" ∈ ["source_database"])
    ∧ (({ papers := [samplePaperA], total_results := 1 } : SearchResult).filter_by_required_fields
        ["source_database"]).papers = [] :=
  ⟨Or.inl (by decide),
   C10_theorem { papers := [samplePaperA], total_results := 1 } ["source_database"]
     (Or.inl (by decide))⟩

/-- C9: every embedded mutator of the paper list — `add_paper`, `extend`,
deduplication and required-field filtering — re-establishes
`total_results = len(papers)`. -/
theorem C9_theorem (r : SearchResult) (p : Paper) (ps : List Paper)
    (req : List String) :
    (r.add_paper p).total_results = (r.add_paper p).papers.length
    ∧ (r.extend ps).total_results = (r.extend ps).papers.length
    ∧ (deduplicate_results r).total_results = (deduplicate_results r).papers.length
    ∧ (r.filter_by_required_fields req).total_results
        = (r.filter_by_required_fields req).papers.length :=
  ⟨rfl, rfl, rfl, rfl⟩

/-- C8: `field_statistics` is empty for an empty paper list (no division by
zero), and each produced statistic has `total_count` equal to the number of
papers, `available_count ≤ total_count`, and
`percentage = available_count / total_count * 100 ∈ [0, 100]`. -/
theorem C8_theorem (r : SearchResult) :
    (r.papers = [] → r.field_statistics = [])
    ∧ ∀ s ∈ r.field_statistics,
        s.total_count = r.papers.length
        ∧ s.available_count ≤ s.total_count
        ∧ s.percentage = (s.available_count : ℚ) / (s.total_count : ℚ) * 100
        ∧ 0 ≤ s.percentage ∧ s.percentage ≤ 100 := by
  constructor
  · intro h
    simp [SearchResult.field_statistics, h]
  · intro s hs
    unfold SearchResult.field_statistics at hs
    by_cases he : r.papers.isEmpty
    · simp [he] at hs
    · rw [if_neg (by simp [he])] at hs
      obtain ⟨f, _, hfs⟩ := List.mem_map.mp hs
      have htot : 0 < r.papers.length := by
        have hne : r.papers ≠ [] := by
          intro h0
          rw [h0] at he
          simp at he
        exact List.length_pos.mpr hne
      have hcle : countAvail r.papers f ≤ r.papers.length :=
        List.length_filter_le _ _
      subst hfs
      refine ⟨rfl, hcle, ?_, ?_, ?_⟩
      · simp [if_pos htot]
      · rw [if_pos htot]
        positivity
      · rw [if_pos htot]
        have hle1 : (countAvail r.papers f : ℚ) / (r.papers.length : ℚ) ≤ 1 := by
          rw [div_le_one (by exact_mod_cast htot)]
          exact_mod_cast hcle
        have := mul_le_mul_of_nonneg_right hle1 (by norm_num : (0:ℚ) ≤ 100)
        simpa using this

/-- C8 witness: a one-paper result; the lone paper has only `title`
available, so the single statistic is `title: 1/1 (100%)`. -/
theorem C8_witness :
    (⟨"title", 1, 1, 100⟩ : FieldStatistics).total_count
      = ({ papers := [sampleUnidentifiable] } : SearchResult).papers.length
    ∧ (⟨"title", 1, 1, 100⟩ : FieldStatistics).available_count
        ≤ (⟨"title", 1, 1, 100⟩ : FieldStatistics).total_count
    ∧ (⟨"title", 1, 1, 100⟩ : FieldStatistics).percentage
        = ((⟨"title", 1, 1, 100⟩ : FieldStatistics).available_count : ℚ)
            / ((⟨"title", 1, 1, 100⟩ : FieldStatistics).total_count : ℚ) * 100
    ∧ 0 ≤ (⟨"title", 1, 1, 100⟩ : FieldStatistics).percentage
    ∧ (⟨"title", 1, 1, 100⟩ : FieldStatistics).percentage ≤ 100 :=
  (C8_theorem { papers := [sampleUnidentifiable] }).2
    ⟨"title", 1, 1, 100⟩
    (by simp [SearchResult.field_statistics, sortFields, insertSorted, pyStrLe,
              charListLe, countAvail, Paper.get_available_fields,
              Paper.modelDumpPresence, skippedFields, sampleUnidentifiable])

end Paperseek
